import Mathlib

/-!
Verification of the Stella high-score extraction engine (`HighScoresManager`)
and the cartridge bank-switching interface (`CartridgeEnhanced`).

The definitions in namespace `HSM` are shallow embeddings of the functions in
`src/common/HighScoresManager.cxx`.  C++ `Int32` values are modelled as `Int`
(no arithmetic here approaches 32-bit overflow on the clamped descriptor
domain), `uInt8`/`uInt16`/`uInt32` conversions are made explicit with `% 256`,
`% 65536` and `% 2^32`, and C++ `/` and `%` on signed integers are modelled
with `Int.tdiv` / `Int.tmod` (truncation toward zero, matching C++).

The companion header `HighScoresManager.hxx` (constants, the `ScoresInfo`
record and the `HSM::ScoreAddresses` sequence type), `CartEnhanced.cxx`,
`Base::toString` and `BSPF::stringToIntBase16` are not part of the excerpted
sources; those parts are modelled from the specification and marked
`Modelled from the spec:` in their doc comments.
-/

namespace HSM

/-- Modelled from the spec: the sentinel returned by every fallible read
(`HighScoresManager.hxx` is absent from the excerpt; the spec fixes the
sentinel "NoValue" at -1). -/
def NO_VALUE : Int := -1

/-- Modelled from the spec: default variation number (spec: `variationCount`
default 1). -/
def DEFAULT_VARIATION : Nat := 1

/-- Modelled from the spec: sentinel "no address" default (spec §4.2: an
absent address field parses to a sentinel "no address" value). -/
def DEFAULT_ADDRESS : Nat := 0

/-- Modelled from the spec: default score digit count (spec §3: default 4). -/
def DEFAULT_DIGITS : Nat := 4

/-- Modelled from the spec: default trailing zeroes (source comment block:
`0, ; trailing zeroes`). -/
def DEFAULT_TRAILING : Nat := 0

/-- Modelled from the spec: default score encoding is BCD (source comment
block: `B, ; score format (BCD, HEX)`). -/
def DEFAULT_SCORE_BCD : Bool := true

/-- Modelled from the spec: default inverted-score flag (source comment block:
`0, ; invert score order`). -/
def DEFAULT_SCORE_REVERSED : Bool := false

/-- Modelled from the spec: default variation encoding is BCD. -/
def DEFAULT_VARS_BCD : Bool := true

/-- Modelled from the spec: default zero-based-variation flag. -/
def DEFAULT_VARS_ZERO_BASED : Bool := false

/-- Modelled from the spec: default special encoding is BCD. -/
def DEFAULT_SPECIAL_BCD : Bool := true

/-- Modelled from the spec: default zero-based-special flag. -/
def DEFAULT_SPECIAL_ZERO_BASED : Bool := false

/-- Modelled from the spec: fixed maximum for the score digit count
(spec §3: `scoreDigits: uint (≤ a fixed maximum, default 4)`). -/
def MAX_SCORE_DIGITS : Nat := 8

/-- Modelled from the spec: fixed maximum for trailing zeroes. -/
def MAX_TRAILING : Nat := 3

/-- Modelled from the spec: fixed maximum for the variation count
(spec §3: `variationCount: uint (1..max, default 1)`). -/
def MAX_VARIATIONS : Nat := 256

/-- The C++ conversion of a signed 32-bit value to `uInt8`
(reduction modulo 2^8; `Int.emod` yields the mathematical residue,
matching the C++ conversion rule for unsigned targets). -/
def int32ToUInt8 (v : Int) : Nat := (v % 256).toNat

/-- `HighScoresManager::fromBCD` (HighScoresManager.cxx:578-585): decode a
decimal-coded-binary byte; a nibble outside 0..9 yields `NO_VALUE`.
The `uInt8` parameter is a `Nat` below 256 (callers convert with
`int32ToUInt8`). -/
def fromBCD (bcd : Nat) : Int :=
  if 0xA0 ≤ Nat.land bcd 0xF0 ∨ 0xA ≤ Nat.land bcd 0xF then NO_VALUE
  else ((bcd >>> 4) * 10 + bcd % 16 : Nat)

/-- The live memory image seen through `OSystem`: the system bus bytes, the
cartridge-internal RAM bytes and that RAM's size (HighScoresManager.cxx:67-77
routes a peek to one of the two).  Byte-sized results are enforced with
`% 256` (`System::peek` returns `uInt8`). -/
structure MemView where
  sysPeek : Nat → Nat
  internalRamSize : Nat
  internalRamGet : Nat → Nat

/-- The byte `HighScoresManager::peek` reads when a console is attached:
addresses below 0x100, or any address when the cartridge has no internal RAM,
come from the system bus; otherwise from cartridge-internal RAM. -/
def memByte (m : MemView) (addr : Nat) : Nat :=
  if addr < 0x100 ∨ m.internalRamSize = 0 then m.sysPeek addr % 256
  else m.internalRamGet addr % 256

/-- `HighScoresManager::peek` (HighScoresManager.cxx:67-77): returns the
routed memory byte while a console is attached and `NO_VALUE` otherwise. -/
def peek (hasConsole : Bool) (m : MemView) (addr : Nat) : Int :=
  if hasConsole then (memByte m addr : Int) else NO_VALUE

/-- The accumulation loop of `HighScoresManager::score`
(HighScoresManager.cxx:373-388): high byte first, the running total is
multiplied by 100 (BCD) or 256 (binary) before the byte read at the next
address is added; a BCD byte that fails to decode aborts with `NO_VALUE`. -/
def scoreLoop (peekF : Nat → Int) (isBCD : Bool) : List Nat → Int → Int
  | [], totalScore => totalScore
  | addr :: rest, totalScore =>
    let total1 := totalScore * (if isBCD then 100 else 256)
    let s := peekF addr
    if isBCD then
      let s2 := fromBCD (int32ToUInt8 s)
      if s2 = NO_VALUE then NO_VALUE
      else scoreLoop peekF isBCD rest (total1 + s2)
    else scoreLoop peekF isBCD rest (total1 + s)

/-- `HighScoresManager::score` (4-argument overload,
HighScoresManager.cxx:365-395): `NO_VALUE` without a console; otherwise the
accumulated total of the first `numAddrBytes` addresses, multiplied by 10 once
per trailing zero unless the total is the sentinel.  The trailing-zero `for`
loop is rendered as multiplication by `10 ^ trailingZeroes`. -/
def score (hasConsole : Bool) (m : MemView) (numAddrBytes trailingZeroes : Nat)
    (isBCD : Bool) (scoreAddr : List Nat) : Int :=
  if hasConsole = false then NO_VALUE
  else
    let totalScore := scoreLoop (peek true m) isBCD (scoreAddr.take numAddrBytes) 0
    if totalScore ≠ NO_VALUE then totalScore * 10 ^ trailingZeroes else totalScore

/-- `HighScoresManager::numAddrBytes` (HighScoresManager.cxx:308-311):
`(digits - trailing + 1) / 2` in `Int32` arithmetic (truncating division),
with the result converted to the `uInt32` return type (reduction modulo
2^32, then read as a `Nat`). -/
def numAddrBytes (digits trailing : Int) : Nat :=
  ((Int.tdiv (digits - trailing + 1) 2) % 2 ^ 32).toNat

/-- The number of bits of `1 << bits` in `HighScoresManager::convert`
(HighScoresManager.cxx:480-482).  The C++ source computes
`ceil(log(maxVal) / log(10) * 4)` resp. `ceil(log(maxVal) / log(2))` with
real-valued logarithms; these ceilings are modelled exactly:
`Nat.clog 2 m = ⌈log₂ m⌉` and `Nat.clog 10 (m^4) = ⌈4·log₁₀ m⌉`. -/
def convBits (maxVal : Nat) (isBCD : Bool) : Nat :=
  if isBCD then Nat.clog 10 (maxVal ^ 4) else Nat.clog 2 maxVal

/-- `HighScoresManager::convert` (HighScoresManager.cxx:477-496): raise
`maxVal` by one when the stored value is one-based, mask the raw value to the
bits needed for `maxVal` (C++ `%` = `Int.tmod`), decode BCD if applicable
(the `uInt8` parameter conversion made explicit), collapse a `NO_VALUE`
decode to 0, and finally add 1 when the stored value is zero-based. -/
def convert (val : Int) (maxVal : Nat) (isBCD zeroBased : Bool) : Int :=
  let maxVal2 := maxVal + (if zeroBased then 0 else 1)
  let bits := convBits maxVal2 isBCD
  let v1 := Int.tmod val (2 ^ bits)
  let v2 := if isBCD then fromBCD (int32ToUInt8 v1) else v1
  if v2 = NO_VALUE then 0
  else v2 + (if zeroBased then 1 else 0)

/-- `HighScoresManager::variation` (4-argument overload,
HighScoresManager.cxx:337-346): the default variation without a console,
otherwise the peeked byte passed through `convert`. -/
def variation (hasConsole : Bool) (m : MemView) (addr : Nat)
    (varBCD zeroBased : Bool) (numVariations : Nat) : Int :=
  if hasConsole = false then (DEFAULT_VARIATION : Nat)
  else convert (peek true m addr) numVariations varBCD zeroBased

/-- `HighScoresManager::special` (3-argument overload,
HighScoresManager.cxx:453-466): `NO_VALUE` without a console; otherwise the
peeked byte, BCD-decoded when configured, plus 1 when zero-based.  Note that
a failed BCD decode leaves the sentinel in `var` and is not collapsed. -/
def special (hasConsole : Bool) (m : MemView) (addr : Nat)
    (varBCD zeroBased : Bool) : Int :=
  if hasConsole = false then NO_VALUE
  else
    let var := peek true m addr
    let var2 := if varBCD then fromBCD (int32ToUInt8 var) else var
    var2 + (if zeroBased then 1 else 0)

/-- A lowercase hexadecimal digit character (`0..9a..f`). -/
def hexDigitChar (n : Nat) : Char :=
  if n < 10 then Char.ofNat (48 + n) else Char.ofNat (97 + n - 10)

/-- Modelled from the spec: `Base::toString(addr, Base::Fmt::_16)` for a
`uInt16` (the `Base` unit is absent from the excerpt) — four lowercase hex
digits of the low 16 bits. -/
def toHexStr4 (n : Nat) : List Char :=
  [hexDigitChar (n / 4096 % 16), hexDigitChar (n / 256 % 16),
   hexDigitChar (n / 16 % 16), hexDigitChar (n % 16)]

/-- The numeric value of one hexadecimal digit character; any other character
contributes 0. -/
def hexVal (c : Char) : Nat :=
  if 48 ≤ c.toNat ∧ c.toNat ≤ 57 then c.toNat - 48
  else if 97 ≤ c.toNat ∧ c.toNat ≤ 102 then c.toNat - 97 + 10
  else if 65 ≤ c.toNat ∧ c.toNat ≤ 70 then c.toNat - 65 + 10
  else 0

/-- Modelled from the spec: `BSPF::stringToIntBase16` (absent from the
excerpt) — parse a digit string base 16. -/
def parseHex (l : List Char) : Nat :=
  l.foldl (fun acc c => acc * 16 + hexVal c) 0

/-- Whether the character list contains the substring `0x`
(`naked.find("0x") != std::string::npos`). -/
def containsHexMarker : List Char → Bool
  | '0' :: 'x' :: _ => true
  | _ :: rest => containsHexMarker rest
  | [] => false

/-- `HighScoresManager::fromHexStr` (HighScoresManager.cxx:567-575).  The
source computes `int pos = naked.find("0x") != std::string::npos`, so `pos`
is 1 whenever the marker occurs anywhere, and `substr(pos + 1)` then drops
the first two characters. -/
def fromHexStr (s : List Char) : Nat :=
  let naked := if containsHexMarker s then s.drop 2 else s
  parseHex naked

/-- The text `"0x" + Base::toString(addr, Base::Fmt::_16)` emitted for every
address field by `HighScoresManager::set`. -/
def hexField (addr : Nat) : List Char := '0' :: 'x' :: toHexStr4 addr

/-- The parsed JSON object held in the `Cart_Highscore` property.  The code
accesses a fixed set of keys (HighScoresManager.cxx:587-600), so the object
is embedded as one optional field per recognized key; a `none` field plays
the role of `!jprops.contains(key)`.  Strings are `List Char`. -/
structure JProps where
  variationsCount : Option Nat
  variationsAddress : Option (List Char)
  variationsBCD : Option Bool
  variationsZeroBased : Option Bool
  scoreDigits : Option Nat
  scoreTrailingZeroes : Option Nat
  scoreBCDProp : Option Bool
  scoreInverted : Option Bool
  scoreAddresses : Option (List (List Char))
  specialLabel : Option (List Char)
  specialAddress : Option (List Char)
  specialBCD : Option Bool
  specialZeroBased : Option Bool
  notes : Option (List Char)
deriving DecidableEq

/-- The JSON object with every key absent. -/
def JProps.empty : JProps :=
  ⟨none, none, none, none, none, none, none, none, none, none, none, none,
   none, none⟩

/-- `HighScoresManager::getPropBool` (HighScoresManager.cxx:509-513). -/
def getPropBool (o : Option Bool) (defVal : Bool) : Bool := o.getD defVal

/-- `HighScoresManager::getPropInt` (HighScoresManager.cxx:517-521). -/
def getPropInt (o : Option Nat) (defVal : Nat) : Nat := o.getD defVal

/-- `HighScoresManager::getPropStr` (HighScoresManager.cxx:524-528). -/
def getPropStr (o : Option (List Char)) (defVal : List Char) : List Char :=
  o.getD defVal

/-- `HighScoresManager::getPropAddr` (HighScoresManager.cxx:531-537): an
absent or empty string yields the default address, anything else is parsed
base 16. -/
def getPropAddr (o : Option (List Char)) (defVal : Nat) : Nat :=
  let str := getPropStr o []
  if str = [] then defVal else fromHexStr str

/-- `HighScoresManager::getPropScoreAddr` (HighScoresManager.cxx:540-564):
the parsed score-address sequence — empty when the key is absent or its array
is empty; an empty address string parses to the default address.  The
`HSM::ScoreAddresses` sequence type lives in the absent header and is
modelled from the spec (§3: "ordered sequence of up to N addresses") as a
list. -/
def getPropScoreAddr (j : JProps) : List Nat :=
  match j.scoreAddresses with
  | none => []
  | some addrProps =>
    if addrProps = [] then []
    else addrProps.map fun address =>
      if address = [] then DEFAULT_ADDRESS else fromHexStr address

/-- `HighScoresManager::numVariations(jprops)` (HighScoresManager.cxx:119-122). -/
def numVariationsJ (j : JProps) : Nat :=
  min (getPropInt j.variationsCount DEFAULT_VARIATION) MAX_VARIATIONS

/-- `HighScoresManager::numDigits` (HighScoresManager.cxx:227-230). -/
def numDigitsJ (j : JProps) : Nat :=
  min (getPropInt j.scoreDigits DEFAULT_DIGITS) MAX_SCORE_DIGITS

/-- `HighScoresManager::trailingZeroes` (HighScoresManager.cxx:233-236). -/
def trailingZeroesJ (j : JProps) : Nat :=
  min (getPropInt j.scoreTrailingZeroes DEFAULT_TRAILING) MAX_TRAILING

/-- `HighScoresManager::scoreBCD` (HighScoresManager.cxx:239-242). -/
def scoreBCDJ (j : JProps) : Bool := getPropBool j.scoreBCDProp DEFAULT_SCORE_BCD

/-- `HighScoresManager::scoreInvert` (HighScoresManager.cxx:245-248). -/
def scoreInvertJ (j : JProps) : Bool :=
  getPropBool j.scoreInverted DEFAULT_SCORE_REVERSED

/-- `HighScoresManager::varBCD` (HighScoresManager.cxx:251-254). -/
def varBCDJ (j : JProps) : Bool := getPropBool j.variationsBCD DEFAULT_VARS_BCD

/-- `HighScoresManager::varZeroBased` (HighScoresManager.cxx:257-260). -/
def varZeroBasedJ (j : JProps) : Bool :=
  getPropBool j.variationsZeroBased DEFAULT_VARS_ZERO_BASED

/-- `HighScoresManager::specialLabel` (HighScoresManager.cxx:263-266). -/
def specialLabelJ (j : JProps) : List Char := getPropStr j.specialLabel []

/-- `HighScoresManager::specialBCD` (HighScoresManager.cxx:269-272). -/
def specialBCDJ (j : JProps) : Bool :=
  getPropBool j.specialBCD DEFAULT_SPECIAL_BCD

/-- `HighScoresManager::specialZeroBased` (HighScoresManager.cxx:275-278). -/
def specialZeroBasedJ (j : JProps) : Bool :=
  getPropBool j.specialZeroBased DEFAULT_SPECIAL_ZERO_BASED

/-- `HighScoresManager::notes(jprops)` (HighScoresManager.cxx:281-284). -/
def notesJ (j : JProps) : List Char := getPropStr j.notes []

/-- `HighScoresManager::varAddress` (HighScoresManager.cxx:296-299). -/
def varAddressJ (j : JProps) : Nat :=
  getPropAddr j.variationsAddress DEFAULT_ADDRESS

/-- `HighScoresManager::specialAddress` (HighScoresManager.cxx:302-305). -/
def specialAddressJ (j : JProps) : Nat :=
  getPropAddr j.specialAddress DEFAULT_ADDRESS

/-- Modelled from the spec: the `ScoresInfo` record of the absent header —
one field per descriptor datum read and written by
`HighScoresManager::get`/`set` (spec §3 lists the same fields; the score
address sequence is a list of `uInt16` addresses). -/
structure ScoresInfo where
  numDigits : Nat
  trailingZeroes : Nat
  scoreBCD : Bool
  scoreInvert : Bool
  varsBCD : Bool
  varsZeroBased : Bool
  special : List Char
  specialBCD : Bool
  specialZeroBased : Bool
  notes : List Char
  varsAddr : Nat
  specialAddr : Nat
  scoreAddr : List Nat
deriving DecidableEq

/-- `HighScoresManager::get` (HighScoresManager.cxx:126-172): read every
descriptor field from the JSON object, substituting the fixed default for
every absent key. -/
def get (j : JProps) : Nat × ScoresInfo :=
  (numVariationsJ j,
   { numDigits := numDigitsJ j
     trailingZeroes := trailingZeroesJ j
     scoreBCD := scoreBCDJ j
     scoreInvert := scoreInvertJ j
     varsBCD := varBCDJ j
     varsZeroBased := varZeroBasedJ j
     special := specialLabelJ j
     specialBCD := specialBCDJ j
     specialZeroBased := specialZeroBasedJ j
     notes := notesJ j
     varsAddr := varAddressJ j
     specialAddr := specialAddressJ j
     scoreAddr := getPropScoreAddr j })

/-- `HighScoresManager::set` (HighScoresManager.cxx:175-224): emit the
variation count unconditionally, every other scalar field only when it
differs from its default, and the first `numAddrBytes` score addresses
unconditionally as hex strings. -/
def set (numVariations : Nat) (info : ScoresInfo) : JProps :=
  let addrBytes := numAddrBytes info.numDigits info.trailingZeroes
  { variationsCount := some (min numVariations MAX_VARIATIONS)
    variationsAddress :=
      if numVariations ≠ DEFAULT_VARIATION then some (hexField info.varsAddr)
      else none
    variationsBCD :=
      if info.varsBCD ≠ DEFAULT_VARS_BCD then some info.varsBCD else none
    variationsZeroBased :=
      if info.varsZeroBased ≠ DEFAULT_VARS_ZERO_BASED then
        some info.varsZeroBased
      else none
    scoreDigits :=
      if info.numDigits ≠ DEFAULT_DIGITS then some info.numDigits else none
    scoreTrailingZeroes :=
      if info.trailingZeroes ≠ DEFAULT_TRAILING then some info.trailingZeroes
      else none
    scoreBCDProp :=
      if info.scoreBCD ≠ DEFAULT_SCORE_BCD then some info.scoreBCD else none
    scoreInverted :=
      if info.scoreInvert ≠ DEFAULT_SCORE_REVERSED then some info.scoreInvert
      else none
    scoreAddresses :=
      some ((List.range addrBytes).map fun a =>
        hexField (info.scoreAddr.getD a DEFAULT_ADDRESS))
    specialLabel := if info.special ≠ [] then some info.special else none
    specialAddress :=
      if info.special ≠ [] then some (hexField info.specialAddr) else none
    specialBCD :=
      if info.specialBCD ≠ DEFAULT_SPECIAL_BCD then some info.specialBCD
      else none
    specialZeroBased :=
      if info.specialZeroBased ≠ DEFAULT_SPECIAL_ZERO_BASED then
        some info.specialZeroBased
      else none
    notes := if info.notes ≠ [] then some info.notes else none }

/-- `HighScoresManager::enabled` (HighScoresManager.cxx:111-116): the feature
is enabled exactly when the JSON object contains the score-address key. -/
def enabledJ (j : JProps) : Bool := j.scoreAddresses.isSome

/-- `HighScoresManager::score` (parameterless overload,
HighScoresManager.cxx:398-407): fail with `NO_VALUE` when the address list
is shorter than the required byte count, otherwise delegate to the
4-argument `score`. -/
def scoreFromProps (hasConsole : Bool) (m : MemView) (j : JProps) : Int :=
  let numBytes := numAddrBytes (numDigitsJ j) (trailingZeroesJ j)
  let scoreAddr := getPropScoreAddr j
  if scoreAddr.length < numBytes then NO_VALUE
  else score hasConsole m numBytes (trailingZeroesJ j) (scoreBCDJ j) scoreAddr

/-- Left-pad a character list to the given width (the effect of
`std::setw`/`std::setfill` on a right-justified stream; a string longer than
the field is not truncated). -/
def padLeft (c : Char) (w : Nat) (s : List Char) : List Char :=
  List.replicate (w - s.length) c ++ s

/-- `HighScoresManager::formattedScore` (HighScoresManager.cxx:410-432),
with the digit count and encoding flag read from the properties passed as
parameters: the empty string for a non-positive score; otherwise a decimal
rendering space-padded to `max(digits, width)` for BCD scores, and a
hexadecimal rendering zero-padded to `digits` preceded by `width - digits`
spaces for binary scores. -/
def formattedScore (digits : Nat) (isBCD : Bool) (scoreVal : Int)
    (width : Nat) : List Char :=
  if scoreVal ≤ 0 then []
  else if isBCD then
    padLeft ' ' (if digits < width then width else digits)
      (Nat.toDigits 10 scoreVal.toNat)
  else
    (if digits < width then List.replicate (width - digits) ' ' else []) ++
      padLeft '0' digits (Nat.toDigits 16 scoreVal.toNat)

/-- `formattedScore` with descriptor data taken from the JSON object, the way
HighScoresManager.cxx:416-419 reads `numDigits` and `scoreBCD` from the
current properties. -/
def formattedScoreJ (j : JProps) (scoreVal : Int) (width : Nat) : List Char :=
  formattedScore (numDigitsJ j) (scoreBCDJ j) scoreVal width

end HSM

namespace Cart

/-- Modelled from the spec: the bank-mapping state of `CartridgeEnhanced`
(`CartEnhanced.cxx` is absent from the excerpt; CartEnhanced.hxx:157-170
declares `mySize` and `myCurrentSegOffset`, the offset into the ROM image for
each bank segment). -/
structure CartState where
  bankSize : Nat
  imageSize : Nat
  currentSegOffsets : List Nat
deriving DecidableEq

/-- Modelled from the spec: `CartridgeEnhanced::bankCount` — total banks =
`imageSize / bankSize` (spec §4.1). -/
def bankCount (c : CartState) : Nat := c.imageSize / c.bankSize

/-- Modelled from the spec: `CartridgeEnhanced::bank(bankIndex, segmentIndex)`
(spec §4.1) — fail, returning `false` and leaving the state untouched, when
`bankIndex >= bankCount()`; otherwise record offset
`bankIndex * bankSize mod imageSize` as the mapping for the segment. -/
def bank (c : CartState) (bankIndex segmentIndex : Nat) : Bool × CartState :=
  if bankCount c ≤ bankIndex then (false, c)
  else
    (true,
     { c with
       currentSegOffsets :=
         c.currentSegOffsets.set segmentIndex
           (bankIndex * c.bankSize % c.imageSize) })

end Cart

namespace HSM

lemma memByte_lt (m : MemView) (addr : Nat) : memByte m addr < 256 := by
  unfold memByte
  split <;> exact Nat.mod_lt _ (by norm_num)

lemma int32ToUInt8_coe (b : Nat) (h : b < 256) : int32ToUInt8 (b : Int) = b := by
  simp only [int32ToUInt8]
  omega

lemma fromBCD_valid (b : Nat) (h1 : Nat.land b 0xF0 < 0xA0)
    (h2 : Nat.land b 0xF < 0xA) :
    fromBCD b = ((b / 16 * 10 + b % 16 : Nat) : Int) := by
  rw [fromBCD, if_neg (by simp only [not_or, not_le]; exact ⟨h1, h2⟩)]
  norm_num [Nat.shiftRight_eq_div_pow]

lemma fromBCD_corrupt (b : Nat)
    (h : 0xA0 ≤ Nat.land b 0xF0 ∨ 0xA ≤ Nat.land b 0xF) :
    fromBCD b = NO_VALUE := by
  rw [fromBCD, if_pos h]

lemma scoreLoop_bin (m : MemView) (l : List Nat) :
    ∀ acc : Int,
      scoreLoop (peek true m) false l acc
        = l.foldl (fun total a => total * 256 + (memByte m a : Int)) acc := by
  induction l with
  | nil => intro acc; rfl
  | cons a rest ih =>
    intro acc
    simp only [scoreLoop, peek, if_true, List.foldl, Bool.false_eq_true,
      if_false]
    exact ih _

lemma scoreLoop_bcd (m : MemView) (l : List Nat) :
    ∀ acc : Int,
      (∀ a ∈ l, Nat.land (memByte m a) 0xF0 < 0xA0
        ∧ Nat.land (memByte m a) 0xF < 0xA) →
      scoreLoop (peek true m) true l acc
        = l.foldl
            (fun total a =>
              total * 100
                + ((memByte m a / 16 * 10 + memByte m a % 16 : Nat) : Int))
            acc := by
  induction l with
  | nil => intro acc _; rfl
  | cons a rest ih =>
    intro acc hv
    obtain ⟨h1, h2⟩ := hv a (List.mem_cons_self a rest)
    simp only [scoreLoop, peek, if_true, List.foldl]
    rw [int32ToUInt8_coe _ (memByte_lt m a), fromBCD_valid _ h1 h2,
      if_neg (by unfold NO_VALUE; omega)]
    exact ih _ fun x hx => hv x (List.mem_cons_of_mem a hx)

lemma scoreLoop_bcd_corrupt (m : MemView) (l : List Nat) :
    ∀ acc : Int,
      (∃ a ∈ l, 0xA0 ≤ Nat.land (memByte m a) 0xF0
        ∨ 0xA ≤ Nat.land (memByte m a) 0xF) →
      scoreLoop (peek true m) true l acc = NO_VALUE := by
  induction l with
  | nil => intro acc h; exact absurd h (by simp)
  | cons a rest ih =>
    intro acc h
    by_cases ha : 0xA0 ≤ Nat.land (memByte m a) 0xF0
      ∨ 0xA ≤ Nat.land (memByte m a) 0xF
    · simp only [scoreLoop, peek, if_true]
      rw [int32ToUInt8_coe _ (memByte_lt m a), fromBCD_corrupt _ ha, if_pos rfl]
    · obtain ⟨x, hx, hcorr⟩ := h
      rcases List.mem_cons.mp hx with rfl | hx2
      · exact absurd hcorr ha
      · push_neg at ha
        simp only [scoreLoop, peek, if_true, List.foldl]
        rw [int32ToUInt8_coe _ (memByte_lt m a),
          fromBCD_valid _ ha.1 ha.2, if_neg (by unfold NO_VALUE; omega)]
        exact ih _ ⟨x, hx2, hcorr⟩

lemma foldl_step_nonneg (k : Int) (g : Nat → Int) (hk : 0 ≤ k)
    (hg : ∀ a, 0 ≤ g a) (l : List Nat) :
    ∀ acc : Int, 0 ≤ acc → 0 ≤ l.foldl (fun total a => total * k + g a) acc := by
  induction l with
  | nil => intro acc h; simpa using h
  | cons a rest ih =>
    intro acc h
    simp only [List.foldl]
    exact ih _ (add_nonneg (mul_nonneg h hk) (hg a))

/-- Claim C1: for every memory state whose score bytes are valid for the
configured encoding, `HighScoresManager::score` accumulates the bytes read at
the score addresses high to low — ×100 plus the decoded two-digit value for
BCD, ×256 plus the raw byte for binary — and finally multiplies the total by
`10 ^ trailingZeroes`. -/
theorem claim_C1_score_accumulation (m : MemView) (n t : Nat) (bcd : Bool)
    (addrs : List Nat) (hn : n ≤ addrs.length)
    (hvalid : bcd = true → ∀ a ∈ addrs.take n,
      Nat.land (memByte m a) 0xF0 < 0xA0 ∧ Nat.land (memByte m a) 0xF < 0xA) :
    score true m n t bcd addrs
      = ((addrs.take n).foldl
          (fun total a =>
            total * (if bcd then 100 else 256)
              + (if bcd then
                  ((memByte m a / 16 * 10 + memByte m a % 16 : Nat) : Int)
                 else (memByte m a : Int)))
          0) * 10 ^ t := by
  cases bcd with
  | false =>
    simp only [score, Bool.true_eq_false, if_false, Bool.false_eq_true]
    rw [scoreLoop_bin m _ 0]
    have h0 : 0 ≤ (addrs.take n).foldl
        (fun total a => total * 256 + (memByte m a : Int)) 0 :=
      foldl_step_nonneg 256 (fun a => (memByte m a : Int)) (by norm_num)
        (fun a => Int.ofNat_nonneg _) (addrs.take n) 0 le_rfl
    rw [if_pos (by unfold NO_VALUE; omega)]
  | true =>
    simp only [score, Bool.true_eq_false, if_false, if_true]
    rw [scoreLoop_bcd m _ 0 (hvalid rfl)]
    have h0 : 0 ≤ (addrs.take n).foldl
        (fun total a =>
          total * 100 + ((memByte m a / 16 * 10 + memByte m a % 16 : Nat) : Int))
        0 :=
      foldl_step_nonneg 100
        (fun a => ((memByte m a / 16 * 10 + memByte m a % 16 : Nat) : Int))
        (by norm_num) (fun a => Int.ofNat_nonneg _) (addrs.take n) 0 le_rfl
    rw [if_pos (by unfold NO_VALUE; omega)]

/-- Witness for C1: digits = 4, trailing = 1 gives 2 address bytes; binary
bytes 0x00 and 0x05 produce the score 50. -/
theorem claim_C1_witness :
    score true ⟨fun a => if a = 0x81 then 5 else 0, 0, fun _ => 0⟩
        (numAddrBytes 4 1) 1 false [0x80, 0x81] = 50 := by
  have e : numAddrBytes 4 1 = 2 := by decide
  rw [e]
  rw [claim_C1_score_accumulation
    ⟨fun a => if a = 0x81 then 5 else 0, 0, fun _ => 0⟩ 2 1 false [0x80, 0x81]
    (by decide) (fun h => nomatch h)]
  decide

/-- Claim C2: with BCD encoding, a score byte with any nibble ≥ 10 makes the
whole score computation return `NO_VALUE`; zero is never silently
substituted. -/
theorem claim_C2_bcd_corrupt_fails (m : MemView) (n t : Nat)
    (addrs : List Nat)
    (h : ∃ a ∈ addrs.take n,
      0xA0 ≤ Nat.land (memByte m a) 0xF0 ∨ 0xA ≤ Nat.land (memByte m a) 0xF) :
    score true m n t true addrs = NO_VALUE := by
  simp only [score, Bool.true_eq_false, if_false, if_true]
  rw [scoreLoop_bcd_corrupt m _ 0 h]
  simp

/-- Witness for C2: a single score byte 0x1A (low nibble 0xA) yields
`NO_VALUE`. -/
theorem claim_C2_witness :
    score true ⟨fun _ => 0x1A, 0, fun _ => 0⟩ 1 0 true [0x80] = NO_VALUE :=
  claim_C2_bcd_corrupt_fails ⟨fun _ => 0x1A, 0, fun _ => 0⟩ 1 0 [0x80]
    ⟨0x80, by decide, by decide⟩

/-- Counterexample to C3 as stated: `numAddrBytes(4, 0)` is 2, but
`ceil((4 - 0 + 1) / 2) = ceil(5/2)` is 3 — the required byte count is the
floor, not the ceiling, of `(digits - trailing + 1) / 2`. -/
theorem claim_C3_counterexample :
    numAddrBytes 4 0 = 2 ∧ (⌈(((4:ℚ) - 0 + 1) / 2)⌉ : ℤ) = 3 := by
  constructor
  · decide
  · rw [Int.ceil_eq_iff] <;> norm_num

/-- Claim C3 (amended): the byte count equals
`floor((digits - trailing + 1) / 2)`, and the parameterless `score()` returns
`NO_VALUE` whenever the descriptor's score address list has fewer entries
than that count. -/
theorem claim_C3_amended :
    (∀ d t : Nat, t ≤ d → d ≤ MAX_SCORE_DIGITS →
      (numAddrBytes d t : ℤ) = ⌊(((d:ℚ) - t + 1) / 2)⌋)
    ∧ (∀ (hc : Bool) (m : MemView) (j : JProps),
        (getPropScoreAddr j).length
            < numAddrBytes (numDigitsJ j) (trailingZeroesJ j) →
        scoreFromProps hc m j = NO_VALUE) := by
  constructor
  · intro d t ht hd
    have hd8 : d ≤ 8 := hd
    have key : Int.tdiv ((d:ℤ) - (t:ℤ) + 1) 2 = ((d:ℤ) - (t:ℤ) + 1) / 2 :=
      Int.tdiv_eq_ediv (by omega) (by omega)
    have hB := Rat.floor_intCast_div_natCast ((d:ℤ) - (t:ℤ) + 1) 2
    push_cast at hB
    rw [hB]
    unfold numAddrBytes
    rw [key]
    omega
  · intro hc m j h
    simp only [scoreFromProps]
    rw [if_pos h]

/-- Witness for the amended C3: the floor formula at digits = 4, trailing = 1,
and the `NO_VALUE` guard for a descriptor declaring one address where two are
required. -/
theorem claim_C3_witness :
    (numAddrBytes (4:ℕ) (1:ℕ) : ℤ) = ⌊((((4:ℕ):ℚ) - ((1:ℕ):ℚ) + 1) / 2)⌋
    ∧ scoreFromProps true ⟨fun _ => 0, 0, fun _ => 0⟩
        { JProps.empty with scoreAddresses := some [['0','x','8','0']] }
        = NO_VALUE :=
  ⟨claim_C3_amended.1 4 1 (by decide) (by decide),
   claim_C3_amended.2 true ⟨fun _ => 0, 0, fun _ => 0⟩
     { JProps.empty with scoreAddresses := some [['0','x','8','0']] }
     (by decide)⟩

lemma clog_two_five : Nat.clog 2 5 = 3 := by
  have h1 : Nat.clog 2 5 ≤ 3 := by
    rw [← Nat.le_pow_iff_clog_le (by norm_num)]; norm_num
  have h2 : ¬ Nat.clog 2 5 ≤ 2 := by
    rw [← Nat.le_pow_iff_clog_le (by norm_num)]; norm_num
  omega

/-- Counterexample to C4 as stated: `convert(17, 4, false, false)` is 1, not
2 — the +1 adjustment is applied when the stored value IS zero-based, not
when it is not. -/
theorem claim_C4_counterexample :
    convert 17 4 false false = 1 ∧ convert 17 4 false false ≠ 2 := by
  have h : convert 17 4 false false = 1 := by
    simp only [convert, convBits]
    norm_num [clog_two_five]
    decide
  exact ⟨h, by rw [h]; decide⟩

/-- Claim C4 (amended): for binary encoding and a non-negative raw value,
`convert` masks the raw value to `ceil(log2(maxValue + (zeroBased ? 0 : 1)))`
bits via modulo `2^bits` and then adds 1 if zero-based; in particular
`convert(17, 4, false, false) = 17 % 8 + 0 = 1`. -/
theorem claim_C4_amended (val : Int) (maxVal : Nat) (zb : Bool)
    (h : 0 ≤ val) :
    convert val maxVal false zb
      = val % 2 ^ Nat.clog 2 (maxVal + if zb then 0 else 1)
          + (if zb then 1 else 0) := by
  simp only [convert, convBits, Bool.false_eq_true, if_false]
  have htm : Int.tmod val ((2:ℤ) ^ Nat.clog 2 (maxVal + if zb = true then 0 else 1))
      = val % (2:ℤ) ^ Nat.clog 2 (maxVal + if zb = true then 0 else 1) :=
    Int.tmod_eq_emod h (by positivity)
  rw [htm]
  have hnn : 0 ≤ val % (2:ℤ) ^ Nat.clog 2 (maxVal + if zb = true then 0 else 1) :=
    Int.emod_nonneg val (by positivity)
  rw [if_neg (by unfold NO_VALUE; omega)]

/-- Witness for the amended C4: `convert(17, 4, false, false) = 1`. -/
theorem claim_C4_witness : convert 17 4 false false = 1 := by
  rw [claim_C4_amended 17 4 false (by norm_num)]
  norm_num [clog_two_five]

/-- Counterexample to C7 as stated: a corrupt BCD special byte (0x1A) with a
non-zero-based special is NOT tolerated — `special` returns `NO_VALUE`, the
same failure sentinel as the strict score path. -/
theorem claim_C7_counterexample :
    special true ⟨fun _ => 0x1A, 0, fun _ => 0⟩ 0x80 true false = NO_VALUE := by
  decide

lemma clog_ten_hundred_pow : Nat.clog 10 (100 ^ 4) = 8 := by
  have h1 : Nat.clog 10 (100 ^ 4) ≤ 8 := by
    rw [← Nat.le_pow_iff_clog_le (by norm_num)]; norm_num
  have h2 : ¬ Nat.clog 10 (100 ^ 4) ≤ 7 := by
    rw [← Nat.le_pow_iff_clog_le (by norm_num)]; norm_num
  omega

/-- Claim C7 (amended): a BCD decode failure inside `convert` collapses the
value to 0 (not `NO_VALUE`); a corrupt BCD special byte is tolerated only in
the zero-based case (where +1 turns the sentinel into 0), while a
non-zero-based special read propagates `NO_VALUE`. -/
theorem claim_C7_amended :
    (∀ (val : Int) (maxVal : Nat) (zb : Bool),
      fromBCD (int32ToUInt8
          (Int.tmod val (2 ^ convBits (maxVal + if zb then 0 else 1) true)))
        = NO_VALUE →
      convert val maxVal true zb = 0)
    ∧ (∀ (m : MemView) (addr : Nat),
        (0xA0 ≤ Nat.land (memByte m addr) 0xF0
          ∨ 0xA ≤ Nat.land (memByte m addr) 0xF) →
        special true m addr true false = NO_VALUE
          ∧ special true m addr true true = 0) := by
  constructor
  · intro val maxVal zb h
    simp only [convert, if_true]
    rw [h, if_pos rfl]
  · intro m addr h
    have hb := fromBCD_corrupt _ h
    constructor
    · simp only [special, Bool.true_eq_false, if_false, peek, if_true]
      rw [int32ToUInt8_coe _ (memByte_lt m addr), hb]
      unfold NO_VALUE
      norm_num
    · simp only [special, Bool.true_eq_false, if_false, peek, if_true]
      rw [int32ToUInt8_coe _ (memByte_lt m addr), hb]
      unfold NO_VALUE
      norm_num

lemma hexVal_hexDigitChar (k : Nat) (h : k < 16) :
    hexVal (hexDigitChar k) = k := by
  interval_cases k <;> decide

lemma parseHex_toHexStr4 (n : Nat) (h : n < 65536) :
    parseHex (toHexStr4 n) = n := by
  simp only [parseHex, toHexStr4, List.foldl]
  rw [hexVal_hexDigitChar _ (by omega), hexVal_hexDigitChar _ (by omega),
    hexVal_hexDigitChar _ (by omega), hexVal_hexDigitChar _ (by omega)]
  omega

lemma fromHexStr_hexField (a : Nat) (h : a < 65536) :
    fromHexStr (hexField a) = a := by
  have hm : containsHexMarker (hexField a) = true := rfl
  simp only [fromHexStr, hexField, hm, if_true, List.drop]
  exact parseHex_toHexStr4 a h

lemma hexField_ne_nil (a : Nat) : hexField a ≠ [] := by
  simp [hexField]

lemma getPropAddr_some_hexField (a : Nat) (h : a < 65536) (defVal : Nat) :
    getPropAddr (some (hexField a)) defVal = a := by
  simp only [getPropAddr, getPropStr, Option.getD]
  rw [if_neg (hexField_ne_nil a)]
  exact fromHexStr_hexField a h

lemma range_map_getD (l : List Nat) :
    (List.range l.length).map (fun a => l.getD a DEFAULT_ADDRESS) = l := by
  apply List.ext_getElem
  · simp
  · intro i h1 h2
    simp only [List.getElem_map, List.getElem_range]
    rw [List.getD_eq_getElem?_getD, List.getElem?_eq_getElem h2]
    rfl

/-- Witness for the amended C7: a corrupt byte 0x1A collapses to 0 inside
`convert`, and the two `special` outcomes at the same corrupt byte. -/
theorem claim_C7_witness :
    convert 0x1A 99 true false = 0
    ∧ special true ⟨fun _ => 0x1A, 0, fun _ => 0⟩ 0x80 true false = NO_VALUE
    ∧ special true ⟨fun _ => 0x1A, 0, fun _ => 0⟩ 0x80 true true = 0 := by
  refine ⟨?_, ?_, ?_⟩
  · refine claim_C7_amended.1 0x1A 99 false ?_
    have e : convBits (99 + if false = true then 0 else 1) true = 8 := by
      simp only [convBits, if_true, Bool.false_eq_true, if_false]
      exact clog_ten_hundred_pow
    rw [e]
    decide
  · exact (claim_C7_amended.2 ⟨fun _ => 0x1A, 0, fun _ => 0⟩ 0x80 (by decide)).1
  · exact (claim_C7_amended.2 ⟨fun _ => 0x1A, 0, fun _ => 0⟩ 0x80 (by decide)).2

/-- Counterexample to C5 as stated: a descriptor with an empty special label
but a non-default special address (7) — and two score addresses — does not
survive the round trip: `set` omits the special address whenever the label is
empty, so `get` reads back the default address 0. -/
theorem claim_C5_counterexample :
    get (set 1
      { numDigits := 4, trailingZeroes := 0, scoreBCD := true,
        scoreInvert := false, varsBCD := true, varsZeroBased := false,
        special := [], specialBCD := true, specialZeroBased := false,
        notes := [], varsAddr := 0, specialAddr := 7,
        scoreAddr := [0x80, 0x81] })
      ≠ (1,
      { numDigits := 4, trailingZeroes := 0, scoreBCD := true,
        scoreInvert := false, varsBCD := true, varsZeroBased := false,
        special := [], specialBCD := true, specialZeroBased := false,
        notes := [], varsAddr := 0, specialAddr := 7,
        scoreAddr := [0x80, 0x81] }) := by
  decide

/-- Claim C5 (amended): `deserialize(serialize(descriptor))` equals the
original for every descriptor with at least one score address whose numeric
fields are within the clamping maxima, whose addresses fit in 16 bits, whose
score-address list has exactly the required length, and whose
conditionally-emitted address fields hold the default when their emission
guard fails (variation address when the variation count is the default;
special address when the special label is empty). -/
theorem claim_C5_roundtrip (nv : Nat) (info : ScoresInfo)
    (hnv : nv ≤ MAX_VARIATIONS)
    (hva : nv = DEFAULT_VARIATION → info.varsAddr = DEFAULT_ADDRESS)
    (hva16 : info.varsAddr < 65536)
    (hd : info.numDigits ≤ MAX_SCORE_DIGITS)
    (ht : info.trailingZeroes ≤ MAX_TRAILING)
    (hsa : info.special = [] → info.specialAddr = DEFAULT_ADDRESS)
    (hsa16 : info.specialAddr < 65536)
    (hlen : info.scoreAddr.length = numAddrBytes info.numDigits info.trailingZeroes)
    (haddr : ∀ x ∈ info.scoreAddr, x < 65536)
    (hone : 1 ≤ info.scoreAddr.length) :
    get (set nv info) = (nv, info) := by
  obtain ⟨d, t, sb, si, vb, vz, sp, spb, spz, no, va, spa, sa⟩ := info
  simp only at hva hva16 hd ht hsa hsa16 hlen haddr hone
  simp only [get, set, Prod.mk.injEq, ScoresInfo.mk.injEq,
    numVariationsJ, numDigitsJ, trailingZeroesJ, scoreBCDJ, scoreInvertJ,
    varBCDJ, varZeroBasedJ, specialLabelJ, specialBCDJ, specialZeroBasedJ,
    notesJ, varAddressJ, specialAddressJ, getPropScoreAddr,
    getPropBool, getPropInt, getPropStr]
  refine ⟨?_, ?_, ?_, ?_, ?_, ?_, ?_, ?_, ?_, ?_, ?_, ?_, ?_, ?_⟩
  · -- variation count
    simp only [Option.getD_some]
    have hm : MAX_VARIATIONS = 256 := rfl
    omega
  · -- digits
    by_cases hdd : d = DEFAULT_DIGITS
    · rw [if_neg (by omega)]
      simp only [Option.getD_none]
      have : DEFAULT_DIGITS = 4 := rfl
      have : MAX_SCORE_DIGITS = 8 := rfl
      omega
    · rw [if_pos (by exact hdd)]
      simp only [Option.getD_some]
      have : MAX_SCORE_DIGITS = 8 := rfl
      omega
  · -- trailing zeroes
    by_cases htt : t = DEFAULT_TRAILING
    · rw [if_neg (by omega)]
      simp only [Option.getD_none]
      have : DEFAULT_TRAILING = 0 := rfl
      have : MAX_TRAILING = 3 := rfl
      omega
    · rw [if_pos (by exact htt)]
      simp only [Option.getD_some]
      have : MAX_TRAILING = 3 := rfl
      omega
  · -- score BCD
    by_cases hb : sb = DEFAULT_SCORE_BCD
    · rw [if_neg (by simpa using hb)]; simpa using hb.symm
    · rw [if_pos (by simpa using hb)]; rfl
  · -- score invert
    by_cases hb : si = DEFAULT_SCORE_REVERSED
    · rw [if_neg (by simpa using hb)]; simpa using hb.symm
    · rw [if_pos (by simpa using hb)]; rfl
  · -- variations BCD
    by_cases hb : vb = DEFAULT_VARS_BCD
    · rw [if_neg (by simpa using hb)]; simpa using hb.symm
    · rw [if_pos (by simpa using hb)]; rfl
  · -- variations zero based
    by_cases hb : vz = DEFAULT_VARS_ZERO_BASED
    · rw [if_neg (by simpa using hb)]; simpa using hb.symm
    · rw [if_pos (by simpa using hb)]; rfl
  · -- special label
    by_cases hb : sp = []
    · rw [if_neg (by simpa using hb)]; simpa using hb.symm
    · rw [if_pos (by simpa using hb)]; rfl
  · -- special BCD
    by_cases hb : spb = DEFAULT_SPECIAL_BCD
    · rw [if_neg (by simpa using hb)]; simpa using hb.symm
    · rw [if_pos (by simpa using hb)]; rfl
  · -- special zero based
    by_cases hb : spz = DEFAULT_SPECIAL_ZERO_BASED
    · rw [if_neg (by simpa using hb)]; simpa using hb.symm
    · rw [if_pos (by simpa using hb)]; rfl
  · -- notes
    by_cases hb : no = []
    · rw [if_neg (by simpa using hb)]; simpa using hb.symm
    · rw [if_pos (by simpa using hb)]; rfl
  · -- variation address
    by_cases hb : nv = DEFAULT_VARIATION
    · rw [if_neg (by simpa using hb)]
      simp only [getPropAddr, getPropStr, Option.getD_none]
      rw [if_pos trivial]
      exact (hva hb).symm
    · rw [if_pos (by simpa using hb)]
      exact getPropAddr_some_hexField va hva16 DEFAULT_ADDRESS
  · -- special address
    by_cases hb : sp = []
    · rw [if_neg (by simpa using hb)]
      simp only [getPropAddr, getPropStr, Option.getD_none]
      rw [if_pos trivial]
      exact (hsa hb).symm
    · rw [if_pos (by simpa using hb)]
      exact getPropAddr_some_hexField spa hsa16 DEFAULT_ADDRESS
  · -- score addresses
    rw [if_neg]
    · rw [List.map_map]
      have hcong : ∀ a ∈ List.range (numAddrBytes d t),
          ((fun address =>
              if address = [] then DEFAULT_ADDRESS else fromHexStr address)
            ∘ fun a => hexField (sa.getD a DEFAULT_ADDRESS)) a
            = sa.getD a DEFAULT_ADDRESS := by
        intro a ha
        have halt : a < sa.length := by
          rw [hlen]; exact List.mem_range.mp ha
        have hx : sa.getD a DEFAULT_ADDRESS = sa[a] := by
          rw [List.getD_eq_getElem?_getD, List.getElem?_eq_getElem halt]
          rfl
        have h16 : sa.getD a DEFAULT_ADDRESS < 65536 := by
          rw [hx]; exact haddr _ (List.getElem_mem halt)
        simp only [Function.comp]
        rw [if_neg (hexField_ne_nil _)]
        exact fromHexStr_hexField _ h16
      rw [List.map_congr_left hcong, ← hlen, range_map_getD]
    · -- the emitted address array is non-empty
      have : numAddrBytes d t ≠ 0 := by omega
      simp [List.range_eq_nil, this]

/-- Witness for the amended C5: a fully in-range descriptor (two variations,
non-empty special label, two score addresses) survives the round trip. -/
theorem claim_C5_witness :
    get (set 2
      { numDigits := 4, trailingZeroes := 0, scoreBCD := true,
        scoreInvert := false, varsBCD := true, varsZeroBased := false,
        special := ['L'], specialBCD := true, specialZeroBased := false,
        notes := [], varsAddr := 160, specialAddr := 161,
        scoreAddr := [0x80, 0x81] })
      = (2,
      { numDigits := 4, trailingZeroes := 0, scoreBCD := true,
        scoreInvert := false, varsBCD := true, varsZeroBased := false,
        special := ['L'], specialBCD := true, specialZeroBased := false,
        notes := [], varsAddr := 160, specialAddr := 161,
        scoreAddr := [0x80, 0x81] }) :=
  claim_C5_roundtrip 2 _ (by decide) (by decide) (by decide) (by decide)
    (by decide) (by decide) (by decide) (by decide) (by decide) (by decide)

/-- Claim C8: a non-positive score formats as the empty string; a positive
BCD score is rendered in decimal, right-justified with spaces in a field of
`max(digits, width)`; a positive binary score is rendered in hexadecimal,
zero-padded to `digits` and preceded by `width - digits` spaces; the default
descriptor formats 42 at width 4 as `"  42"`. -/
theorem claim_C8_formatted_score :
    (∀ (d : Nat) (b : Bool) (s : Int) (w : Nat),
      s ≤ 0 → formattedScore d b s w = [])
    ∧ (∀ (d : Nat) (s : Int) (w : Nat), 0 < s →
        formattedScore d true s w
          = List.replicate (max d w - (Nat.toDigits 10 s.toNat).length) ' '
              ++ Nat.toDigits 10 s.toNat)
    ∧ (∀ (d : Nat) (s : Int) (w : Nat), 0 < s →
        formattedScore d false s w
          = List.replicate (w - d) ' '
              ++ (List.replicate (d - (Nat.toDigits 16 s.toNat).length) '0'
                  ++ Nat.toDigits 16 s.toNat))
    ∧ formattedScoreJ JProps.empty 42 4 = [' ', ' ', '4', '2'] := by
  refine ⟨?_, ?_, ?_, by decide⟩
  · intro d b s w h
    rw [formattedScore, if_pos h]
  · intro d s w h
    rw [formattedScore, if_neg (by omega), if_pos rfl]
    have e : (if d < w then w else d) = max d w := by
      rcases Nat.lt_or_ge d w with h1 | h1
      · rw [if_pos h1]; omega
      · rw [if_neg (by omega)]; omega
    rw [e, padLeft]
  · intro d s w h
    rw [formattedScore, if_neg (by omega)]
    rw [if_neg (by simp)]
    by_cases hdw : d < w
    · rw [if_pos hdw, padLeft]
    · rw [if_neg hdw]
      have e : w - d = 0 := by omega
      rw [e, padLeft]
      simp

/-- Witness for C8: `formatScore(0, 7)` is empty and `formatScore(42, 4)`
with BCD and 4 digits is `"  42"`. -/
theorem claim_C8_witness :
    formattedScore 4 true 0 7 = []
    ∧ formattedScore 4 true 42 4 = [' ', ' ', '4', '2'] := by
  constructor
  · exact claim_C8_formatted_score.1 4 true 0 7 (by norm_num)
  · rw [claim_C8_formatted_score.2.1 4 42 4 (by norm_num)]
    decide

/-- Counterexample to C9 as stated: a persisted descriptor whose
score-address key holds an empty array is "enabled" (`enabled()` only tests
key presence) yet declares no score address. -/
theorem claim_C9_counterexample :
    enabledJ { JProps.empty with scoreAddresses := some [] } = true
    ∧ getPropScoreAddr { JProps.empty with scoreAddresses := some [] }
        = [] := by
  decide

/-- Claim C9 (amended): declaring at least one score address implies the
feature is enabled, and a disabled descriptor declares none — but enabledness
itself only tests presence of the score-address key, so an enabled descriptor
may still declare an empty address list. -/
theorem claim_C9_enabled (j : JProps) :
    (getPropScoreAddr j ≠ [] → enabledJ j = true)
    ∧ (enabledJ j = false → getPropScoreAddr j = []) := by
  constructor
  · intro h
    match hj : j.scoreAddresses with
    | some l => simp [enabledJ, hj]
    | none => exact absurd (by simp [getPropScoreAddr, hj]) h
  · intro h
    match hj : j.scoreAddresses with
    | some l => simp [enabledJ, hj] at h
    | none => simp [getPropScoreAddr, hj]

/-- Witness for the amended C9: a descriptor declaring one score address is
enabled. -/
theorem claim_C9_witness :
    enabledJ { JProps.empty with scoreAddresses := some [['0','x','8','0']] }
      = true :=
  (claim_C9_enabled _).1 (by decide)

/-- Claim C10: with no console attached, every high-score memory read
degrades to a sentinel: `peek`, `score` and `special` return `NO_VALUE`,
while `variation` returns the default variation 1. -/
theorem claim_C10_no_console_sentinels :
    (∀ (m : MemView) (addr : Nat), peek false m addr = NO_VALUE)
    ∧ (∀ (m : MemView) (n t : Nat) (bcd : Bool) (addrs : List Nat),
        score false m n t bcd addrs = NO_VALUE)
    ∧ (∀ (m : MemView) (addr : Nat) (bcd zb : Bool),
        special false m addr bcd zb = NO_VALUE)
    ∧ (∀ (m : MemView) (addr : Nat) (bcd zb : Bool) (nv : Nat),
        variation false m addr bcd zb nv = ((DEFAULT_VARIATION : Nat) : Int)) :=
  ⟨fun _ _ => rfl, fun _ _ _ _ _ => rfl, fun _ _ _ _ => rfl,
   fun _ _ _ _ _ => rfl⟩

end HSM

namespace Cart

/-- Claim C6: `bank(bankIndex, segmentIndex)` fails, returning `false`,
whenever `bankIndex >= bankCount()`, and such a failure leaves the segment
offsets completely unchanged. -/
theorem claim_C6_bank_invalid_refused (c : CartState) (b s : Nat)
    (h : bankCount c ≤ b) :
    (bank c b s).1 = false
      ∧ (bank c b s).2.currentSegOffsets = c.currentSegOffsets := by
  unfold bank
  rw [if_pos h]
  exact ⟨rfl, rfl⟩

/-- Witness for C6: a 8K image with 4K banks has bankCount 2, and
`bank(2, 0)` fails leaving both segment offsets untouched. -/
theorem claim_C6_witness :
    (bank ⟨4096, 8192, [0, 4096]⟩ 2 0).1 = false
    ∧ (bank ⟨4096, 8192, [0, 4096]⟩ 2 0).2.currentSegOffsets = [0, 4096] :=
  claim_C6_bank_invalid_refused ⟨4096, 8192, [0, 4096]⟩ 2 0 (by decide)

end Cart
